import Mathlib

/-!
Verification of the windowed anomaly detector in `src/main.py`.

The program keeps a sliding window of recent samples in a
`collections.deque` with a fixed `maxlen`, and classifies the newest
sample by its Z-score against the window's mean and population standard
deviation (`np.mean` / `np.std` with the default `ddof=0`).

Python floats are modelled as real numbers.  A window is a `List ℝ` in
oldest-first order, matching the deque's iteration order.
-/

namespace AnomalyDetection

open Classical

/-- `np.mean(window)`: the sum of the entries divided by their count. -/
noncomputable def npMean (w : List ℝ) : ℝ := w.sum / w.length

/-- The population variance underlying `np.std(window)`: the mean of the
squared deviations from the mean (denominator `len(window)`, numpy's
default `ddof=0`). -/
noncomputable def npVar (w : List ℝ) : ℝ :=
  ((w.map (fun x => (x - npMean w) ^ 2)).sum) / w.length

/-- `np.std(window)`: the square root of the population variance. -/
noncomputable def npStd (w : List ℝ) : ℝ := Real.sqrt (npVar w)

/-- `detect_anomaly(window, threshold)` from `src/main.py`:

* fewer than 2 values → `(False, 0.0)`;
* `std == 0` → `(False, 0.0)`;
* otherwise `z_score = (window[-1] - mean) / std` and the result is
  `(abs(z_score) > threshold, z_score)`. -/
noncomputable def detect_anomaly (window : List ℝ) (threshold : ℝ) : Bool × ℝ :=
  if window.length < 2 then (false, 0)
  else if npStd window = 0 then (false, 0)
  else
    let latest_value : ℝ := window.getLast?.getD 0
    let z_score : ℝ := (latest_value - npMean window) / npStd window
    (decide (|z_score| > threshold), z_score)

/-- `window.append(data)` on a deque with `maxlen = N` (line 88 of
`src/main.py`): appends on the right and, when the deque is full, drops
the single oldest element on the left. -/
def dequePush (N : ℕ) (w : List ℝ) (x : ℝ) : List ℝ :=
  if w.length < N then w ++ [x] else w.tail ++ [x]

/-- Pushing a whole list of samples, one by one, oldest first. -/
def dequePushAll (N : ℕ) (w : List ℝ) (xs : List ℝ) : List ℝ :=
  xs.foldl (dequePush N) w

/-- The errors the spec's detector constructor can raise. -/
inductive ConstructError
  | InvalidCapacity
  | InvalidThreshold
  deriving DecidableEq

/-- The spec's `AnomalyDetector`: a threshold, a window capacity and the
owned sliding window (oldest-first). -/
structure AnomalyDetector where
  window_size : ℕ
  threshold : ℝ
  window : List ℝ

/-- Modelled from the spec: `src/main.py` has no detector class or
constructor-time validation, so `new(window_size, threshold)` follows the
spec's contract — fail with `InvalidCapacity` if `window_size < 2`, fail
with `InvalidThreshold` if `threshold ≤ 0`, otherwise start with an empty
window and exactly the given parameters. -/
noncomputable def AnomalyDetector.new (window_size : ℕ) (threshold : ℝ) :
    Except ConstructError AnomalyDetector :=
  if window_size < 2 then .error .InvalidCapacity
  else if threshold ≤ 0 then .error .InvalidThreshold
  else .ok ⟨window_size, threshold, []⟩

/-- `classify(sample)`: push the sample into the window (the deque
semantics of line 88 of `src/main.py`), then run `detect_anomaly` from
`src/main.py` on the updated window. -/
noncomputable def AnomalyDetector.classify (d : AnomalyDetector) (sample : ℝ) :
    AnomalyDetector × Bool × ℝ :=
  let w := dequePush d.window_size d.window sample
  (⟨d.window_size, d.threshold, w⟩, detect_anomaly w d.threshold)

/-- `window_size = 100` in `main` of `src/main.py`. -/
def mainWindowSize : ℕ := 100

/-- `main`'s window: `deque([0.0] * window_size, maxlen=window_size)` —
pre-filled with 100 zeros. -/
def mainInitWindow : List ℝ := List.replicate mainWindowSize 0

/-- The window of the assembled program after `update` has run once per
element of `datas`: each `update` call appends the next data point to
`main`'s pre-filled window (lines 85–88 of `src/main.py`). -/
def mainWindowAfter (datas : List ℝ) : List ℝ :=
  dequePushAll mainWindowSize mainInitWindow datas

/-- The spec's "arithmetic mean of all values currently in the window"
(spec-side definition, for comparison with the source's `npMean`). -/
noncomputable def specMean (w : List ℝ) : ℝ := w.sum / w.length

/-- The spec's glossary definition of population standard deviation:
"square root of the average squared deviation from the mean, divided by
count (not count−1)" (spec-side, for comparison with `npStd`). -/
noncomputable def specPopStd (w : List ℝ) : ℝ :=
  Real.sqrt (((w.map (fun x => (x - specMean w) ^ 2)).sum) / w.length)

/-- The sample-standard-deviation convention the spec rules out: the same
sum of squared deviations, divided by `count − 1`. -/
noncomputable def specSampleStd (w : List ℝ) : ℝ :=
  Real.sqrt (((w.map (fun x => (x - specMean w) ^ 2)).sum) / (w.length - 1 : ℕ))

/-- Unfolding `detect_anomaly` in the main (two-branch-free) case. -/
theorem detect_anomaly_of_long (w : List ℝ) (t : ℝ)
    (h2 : 2 ≤ w.length) (hstd : npStd w ≠ 0) :
    detect_anomaly w t =
      (decide (|(w.getLast?.getD 0 - npMean w) / npStd w| > t),
       (w.getLast?.getD 0 - npMean w) / npStd w) := by
  unfold detect_anomaly
  rw [if_neg (by omega), if_neg hstd]

/-- Pushing appends the sample at the right end of the window. -/
theorem dequePush_getLast (N : ℕ) (w : List ℝ) (x : ℝ) :
    (dequePush N w x).getLast?.getD 0 = x := by
  unfold dequePush
  split <;> simp

/-- Concrete evaluation: the window `[0, 2]` has mean 1. -/
theorem npMean_zero_two : npMean [(0 : ℝ), 2] = 1 := by
  unfold npMean
  norm_num

/-- Concrete evaluation: the window `[0, 2]` has standard deviation 1. -/
theorem npStd_zero_two : npStd [(0 : ℝ), 2] = 1 := by
  unfold npStd npVar
  rw [npMean_zero_two]
  norm_num

/-- C4: for every window holding fewer than 2 values and every threshold,
`detect_anomaly` returns `is_anomaly = false` and `z_score = 0.0`. -/
theorem C4_insufficient_history (w : List ℝ) (t : ℝ) (h : w.length < 2) :
    detect_anomaly w t = (false, 0) := by
  unfold detect_anomaly
  rw [if_pos h]

/-- Witness for C4 at the singleton window `[5]` and threshold 3. -/
theorem C4_insufficient_history_witness :
    ([(5 : ℝ)]).length < 2 ∧ detect_anomaly [(5 : ℝ)] 3 = (false, 0) :=
  ⟨by simp, C4_insufficient_history [(5 : ℝ)] 3 (by simp)⟩

/-- C3: for every window holding at least 2 values whose standard
deviation is 0, and every threshold, `detect_anomaly` returns
`is_anomaly = false` and `z_score = 0.0` through the early-return branch,
so the division by `std` is never reached. -/
theorem C3_zero_variance (w : List ℝ) (t : ℝ)
    (h2 : 2 ≤ w.length) (hstd : npStd w = 0) :
    detect_anomaly w t = (false, 0) := by
  unfold detect_anomaly
  rw [if_neg (by omega), if_pos hstd]

/-- Witness for C3 at the constant window `[5, 5]` and threshold 3. -/
theorem C3_zero_variance_witness :
    2 ≤ ([(5 : ℝ), 5]).length ∧ npStd [(5 : ℝ), 5] = 0 ∧
      detect_anomaly [(5 : ℝ), 5] 3 = (false, 0) := by
  have hstd : npStd [(5 : ℝ), 5] = 0 := by
    unfold npStd npVar npMean
    norm_num
  exact ⟨by simp, hstd, C3_zero_variance [(5 : ℝ), 5] 3 (by simp) hstd⟩

/-- C1: for every window holding at least 2 values whose population
standard deviation is nonzero, and every threshold, `detect_anomaly`
returns `z_score = (latest value − mean) / std`, reports an anomaly
exactly when `|z_score| > threshold` with strict inequality, and a
z-score whose absolute value equals the threshold exactly is not an
anomaly. -/
theorem C1_z_score_strict_threshold (w : List ℝ) (t : ℝ)
    (h2 : 2 ≤ w.length) (hstd : npStd w ≠ 0) :
    (detect_anomaly w t).2 = (w.getLast?.getD 0 - npMean w) / npStd w ∧
    ((detect_anomaly w t).1 = true ↔ |(detect_anomaly w t).2| > t) ∧
    (|(detect_anomaly w t).2| = t → (detect_anomaly w t).1 = false) := by
  rw [detect_anomaly_of_long w t h2 hstd]
  refine ⟨rfl, by simp, ?_⟩
  intro heq
  simp only [decide_eq_false_iff_not, not_lt]
  exact le_of_eq heq

/-- Witness for C1 at the window `[0, 2]` (mean 1, std 1, latest value 2,
z-score 1) and threshold 3. -/
theorem C1_z_score_strict_threshold_witness :
    2 ≤ ([(0 : ℝ), 2]).length ∧ npStd [(0 : ℝ), 2] ≠ 0 ∧
    ((detect_anomaly [(0 : ℝ), 2] 3).2 =
        (([(0 : ℝ), 2]).getLast?.getD 0 - npMean [(0 : ℝ), 2]) / npStd [(0 : ℝ), 2] ∧
      ((detect_anomaly [(0 : ℝ), 2] 3).1 = true ↔
        |(detect_anomaly [(0 : ℝ), 2] 3).2| > 3) ∧
      (|(detect_anomaly [(0 : ℝ), 2] 3).2| = 3 →
        (detect_anomaly [(0 : ℝ), 2] 3).1 = false)) := by
  have hstd : npStd [(0 : ℝ), 2] ≠ 0 := by rw [npStd_zero_two]; norm_num
  exact ⟨by simp, hstd, C1_z_score_strict_threshold [(0 : ℝ), 2] 3 (by simp) hstd⟩

/-- C2: for every window holding at least 2 values (after the push of the
newest sample), the mean used for classification is the spec's arithmetic
mean of all values currently in the window, the standard deviation is the
spec's population standard deviation (denominator `N`), the returned
z-score is computed from the just-pushed sample against those statistics,
and (whenever the standard deviation is nonzero) the population standard
deviation differs from the `N − 1` sample convention. -/
theorem C2_population_statistics (N : ℕ) (w : List ℝ) (sample t : ℝ)
    (h2 : 2 ≤ (dequePush N w sample).length)
    (hstd : npStd (dequePush N w sample) ≠ 0) :
    npMean (dequePush N w sample) = specMean (dequePush N w sample) ∧
    npStd (dequePush N w sample) = specPopStd (dequePush N w sample) ∧
    (detect_anomaly (dequePush N w sample) t).2 =
      (sample - specMean (dequePush N w sample)) /
        specPopStd (dequePush N w sample) ∧
    npStd (dequePush N w sample) ≠ specSampleStd (dequePush N w sample) := by
  set w' := dequePush N w sample with hw'
  have hthird : (detect_anomaly w' t).2 =
      (sample - specMean w') / specPopStd w' := by
    rw [detect_anomaly_of_long w' t h2 hstd]
    rw [hw', dequePush_getLast]
    rfl
  have hS0 : 0 ≤ ((w'.map (fun x => (x - npMean w') ^ 2)).sum) := by
    apply List.sum_nonneg
    intro x hx
    rw [List.mem_map] at hx
    obtain ⟨y, -, rfl⟩ := hx
    positivity
  have hvar : npVar w' ≠ 0 := by
    intro h
    exact hstd (by rw [npStd, h, Real.sqrt_zero])
  have hSne : ((w'.map (fun x => (x - npMean w') ^ 2)).sum) ≠ 0 := by
    intro h
    exact hvar (by rw [npVar, h, zero_div])
  have hSpos : 0 < ((w'.map (fun x => (x - npMean w') ^ 2)).sum) :=
    lt_of_le_of_ne hS0 (Ne.symm hSne)
  have hlen : (2 : ℝ) ≤ (w'.length : ℝ) := by exact_mod_cast h2
  have hlt : npStd w' < specSampleStd w' := by
    rw [npStd, npVar, specSampleStd]
    have hcast : ((w'.length - 1 : ℕ) : ℝ) = (w'.length : ℝ) - 1 := by
      have h1 : 1 ≤ w'.length := by omega
      rw [Nat.cast_sub h1, Nat.cast_one]
    apply Real.sqrt_lt_sqrt (by positivity)
    rw [hcast]
    have hmaps : (w'.map (fun x => (x - specMean w') ^ 2)).sum
        = (w'.map (fun x => (x - npMean w') ^ 2)).sum := rfl
    rw [hmaps]
    exact div_lt_div_of_pos_left hSpos (by linarith) (by linarith)
  exact ⟨rfl, rfl, hthird, ne_of_lt hlt⟩

/-- Witness for C2 at the window `[0]` pushed with sample 2 in a capacity-2
deque (post-push window `[0, 2]`) and threshold 3. -/
theorem C2_population_statistics_witness :
    2 ≤ (dequePush 2 [(0 : ℝ)] 2).length ∧
    npStd (dequePush 2 [(0 : ℝ)] 2) ≠ 0 ∧
    (npMean (dequePush 2 [(0 : ℝ)] 2) = specMean (dequePush 2 [(0 : ℝ)] 2) ∧
      npStd (dequePush 2 [(0 : ℝ)] 2) = specPopStd (dequePush 2 [(0 : ℝ)] 2) ∧
      (detect_anomaly (dequePush 2 [(0 : ℝ)] 2) 3).2 =
        ((2 : ℝ) - specMean (dequePush 2 [(0 : ℝ)] 2)) /
          specPopStd (dequePush 2 [(0 : ℝ)] 2) ∧
      npStd (dequePush 2 [(0 : ℝ)] 2) ≠ specSampleStd (dequePush 2 [(0 : ℝ)] 2)) := by
  have hpush : dequePush 2 [(0 : ℝ)] 2 = [(0 : ℝ), 2] := by
    unfold dequePush
    norm_num
  have hstd : npStd (dequePush 2 [(0 : ℝ)] 2) ≠ 0 := by
    rw [hpush, npStd_zero_two]
    norm_num
  have hlen : 2 ≤ (dequePush 2 [(0 : ℝ)] 2).length := by rw [hpush]; simp
  exact ⟨hlen, hstd, C2_population_statistics 2 [(0 : ℝ)] 2 3 hlen hstd⟩

/-- Unfolding one push in `dequePushAll`. -/
theorem dequePushAll_cons (N : ℕ) (w : List ℝ) (x : ℝ) (xs : List ℝ) :
    dequePushAll N w (x :: xs) = dequePushAll N (dequePush N w x) xs := rfl

/-- Characterization of the deque after a sequence of pushes: for a
positive capacity and a window within capacity, pushing `xs` leaves
exactly the last `N` elements (or all of them, if fewer) of the
concatenation `w ++ xs`, oldest first. -/
theorem dequePushAll_eq_drop (N : ℕ) (hN : 1 ≤ N) (xs : List ℝ) :
    ∀ w : List ℝ, w.length ≤ N →
      dequePushAll N w xs = (w ++ xs).drop (w.length + xs.length - N) := by
  induction xs with
  | nil =>
    intro w hw
    simp [dequePushAll, Nat.sub_eq_zero_of_le hw]
  | cons x xs ih =>
    intro w hw
    rw [dequePushAll_cons]
    by_cases h : w.length < N
    · have hpush : dequePush N w x = w ++ [x] := by
        unfold dequePush
        rw [if_pos h]
      rw [hpush, ih (w ++ [x]) (by simp; omega)]
      rw [List.append_assoc, List.singleton_append]
      congr 1
      simp
      omega
    · have hlen : w.length = N := le_antisymm hw (not_lt.mp h)
      obtain ⟨y, w', rfl⟩ : ∃ y w', w = y :: w' := by
        cases w with
        | nil => simp at hlen; omega
        | cons y w' => exact ⟨y, w', rfl⟩
      have hpush : dequePush N (y :: w') x = w' ++ [x] := by
        unfold dequePush
        rw [if_neg h]
        rfl
      rw [hpush, ih (w' ++ [x]) (by simp at hlen ⊢; omega)]
      have hlen' : w'.length + 1 = N := by simpa using hlen
      have ha : (w' ++ [x]).length + xs.length - N = xs.length := by
        simp only [List.length_append, List.length_singleton]
        omega
      have hb : (y :: w').length + (x :: xs).length - N = xs.length + 1 := by
        simp only [List.length_cons]
        omega
      rw [ha, hb, List.cons_append, List.drop_succ_cons, List.append_assoc,
        List.singleton_append]

/-- C7: for every capacity `N ≥ 2` and every sequence of `k > N` values
pushed into an initially empty window, the window holds exactly the last
`N` values `[v(k−N+1), ..., vk]` in oldest-first order. -/
theorem C7_fifo_eviction (N : ℕ) (vs : List ℝ) (hN : 2 ≤ N)
    (hk : N < vs.length) :
    dequePushAll N [] vs = vs.drop (vs.length - N) := by
  rw [dequePushAll_eq_drop N (by omega) vs [] (by simp)]
  simp

/-- Witness for C7: capacity 2, pushes `[1, 2, 3]`, final window `[2, 3]`. -/
theorem C7_fifo_eviction_witness :
    (2 : ℕ) < ([(1 : ℝ), 2, 3]).length ∧
      dequePushAll 2 [] [(1 : ℝ), 2, 3] = [(2 : ℝ), 3] :=
  ⟨by simp,
    (C7_fifo_eviction 2 [(1 : ℝ), 2, 3] (le_refl 2) (by simp)).trans (by simp)⟩

/-- C8: for every capacity `N ≥ 2` and any sequence of pushes into an
initially empty window, the window's length never exceeds `N`, and after
at least `N` pushes it equals `N` exactly. -/
theorem C8_bounded_length (N : ℕ) (vs : List ℝ) (hN : 2 ≤ N) :
    (dequePushAll N [] vs).length ≤ N ∧
      (N ≤ vs.length → (dequePushAll N [] vs).length = N) := by
  rw [dequePushAll_eq_drop N (by omega) vs [] (by simp)]
  simp only [List.nil_append, List.length_nil, Nat.zero_add, List.length_drop]
  omega

/-- Witness for C8: capacity 2 and pushes `[1, 2, 3]`. -/
theorem C8_bounded_length_witness :
    (dequePushAll 2 [] [(1 : ℝ), 2, 3]).length ≤ 2 ∧
      (2 ≤ ([(1 : ℝ), 2, 3]).length →
        (dequePushAll 2 [] [(1 : ℝ), 2, 3]).length = 2) :=
  C8_bounded_length 2 [(1 : ℝ), 2, 3] (le_refl 2)

/-- C10: `main` pre-fills its deque with `window_size = 100` copies of
`0.0`, so after any sequence of `update` ticks the window's length equals
the capacity 100 — never below it, so the `len(window) < 2`
insufficient-history branch of `detect_anomaly` is unreachable in the
assembled program — and after `k ≤ 100` real samples the window is
`100 − k` synthetic zeros followed by those samples. -/
theorem C10_prefilled_window (datas : List ℝ) :
    mainInitWindow.length = mainWindowSize ∧
    (mainWindowAfter datas).length = 100 ∧
    ¬ (mainWindowAfter datas).length < 2 ∧
    (datas.length ≤ 100 →
      mainWindowAfter datas = List.replicate (100 - datas.length) 0 ++ datas) := by
  have hinit : mainInitWindow.length = 100 := by
    simp [mainInitWindow, mainWindowSize]
  have hall : mainWindowAfter datas =
      (mainInitWindow ++ datas).drop datas.length := by
    rw [mainWindowAfter, dequePushAll_eq_drop mainWindowSize
      (by norm_num [mainWindowSize]) datas mainInitWindow (by rw [hinit]; rfl)]
    rw [hinit]
    congr 1
    simp [mainWindowSize]
  have hlen : (mainWindowAfter datas).length = 100 := by
    rw [hall]
    simp [hinit]
  refine ⟨hinit, hlen, by omega, ?_⟩
  intro hk
  rw [hall, mainInitWindow, mainWindowSize,
    List.drop_append_of_le_length (by simpa using hk), List.drop_replicate]

/-- Witness for C10 after a single tick with sample 7. -/
theorem C10_prefilled_window_witness :
    mainInitWindow.length = mainWindowSize ∧
    (mainWindowAfter [(7 : ℝ)]).length = 100 ∧
    ¬ (mainWindowAfter [(7 : ℝ)]).length < 2 ∧
    (([(7 : ℝ)]).length ≤ 100 →
      mainWindowAfter [(7 : ℝ)] =
        List.replicate (100 - ([(7 : ℝ)]).length) 0 ++ [(7 : ℝ)]) :=
  C10_prefilled_window [(7 : ℝ)]

/-- C6: constructing a detector fails with `InvalidCapacity` when
`window_size < 2` and with `InvalidThreshold` when `threshold ≤ 0`
(capacity checked first); with valid parameters it succeeds with exactly
the given `window_size` and `threshold`, never defaulted or clamped. -/
theorem C6_construction_validation (N : ℕ) (t : ℝ) :
    (N < 2 → AnomalyDetector.new N t = .error .InvalidCapacity) ∧
    (2 ≤ N → t ≤ 0 → AnomalyDetector.new N t = .error .InvalidThreshold) ∧
    (2 ≤ N → 0 < t → AnomalyDetector.new N t = .ok ⟨N, t, []⟩) := by
  unfold AnomalyDetector.new
  refine ⟨fun h => ?_, fun h2 ht => ?_, fun h2 ht => ?_⟩
  · rw [if_pos h]
  · rw [if_neg (by omega), if_pos ht]
  · rw [if_neg (by omega), if_neg (not_le.mpr ht)]

/-- Witness for C6: `new 1 3`, `new 2 (−1)` and `new 2 3`. -/
theorem C6_construction_validation_witness :
    AnomalyDetector.new 1 3 = .error .InvalidCapacity ∧
    AnomalyDetector.new 2 (-1) = .error .InvalidThreshold ∧
    AnomalyDetector.new 2 3 = .ok ⟨2, 3, []⟩ :=
  ⟨(C6_construction_validation 1 3).1 (by norm_num),
   (C6_construction_validation 2 (-1)).2.1 (by norm_num) (by norm_num),
   (C6_construction_validation 2 3).2.2 (by norm_num) (by norm_num)⟩

/-- C5: on any detector freshly and successfully constructed (so with an
empty window and `window_size ≥ 2`), the first call to `classify` returns
`is_anomaly = false` and `z_score = 0.0`, for every sample. -/
theorem C5_first_classify (N : ℕ) (t x : ℝ) (d : AnomalyDetector)
    (hd : AnomalyDetector.new N t = .ok d) :
    (d.classify x).2 = (false, 0) := by
  unfold AnomalyDetector.new at hd
  split_ifs at hd
  obtain rfl : (⟨N, t, []⟩ : AnomalyDetector) = d := by
    simpa using hd
  have hpush : dequePush N [] x = [x] := by
    unfold dequePush
    split <;> rfl
  show detect_anomaly (dequePush N [] x) t = (false, 0)
  rw [hpush]
  unfold detect_anomaly
  rw [if_pos (by simp)]

/-- Witness for C5: `new 2 3` succeeds and the first classify of sample 42
returns `(false, 0)`. -/
theorem C5_first_classify_witness :
    AnomalyDetector.new 2 3 = .ok ⟨2, 3, []⟩ ∧
      ((⟨2, 3, []⟩ : AnomalyDetector).classify 42).2 = (false, 0) := by
  have hnew : AnomalyDetector.new 2 3 = .ok ⟨2, 3, []⟩ := by
    unfold AnomalyDetector.new
    norm_num
  exact ⟨hnew, C5_first_classify 2 3 42 ⟨2, 3, []⟩ hnew⟩

/-- Concrete evaluation: the window `[1, 1, 100]` has mean 34. -/
theorem npMean_spike : npMean [(1 : ℝ), 1, 100] = 34 := by
  unfold npMean
  norm_num

/-- Concrete evaluation: the window `[1, 1, 100]` has population variance
2178. -/
theorem npVar_spike : npVar [(1 : ℝ), 1, 100] = 2178 := by
  unfold npVar
  simp only [npMean_spike]
  norm_num

/-- Concrete evaluation: the window `[1, 1, 100]` has standard deviation
`√2178 ≈ 46.67`. -/
theorem npStd_spike : npStd [(1 : ℝ), 1, 100] = Real.sqrt 2178 := by
  unfold npStd
  rw [npVar_spike]

/-- Concrete evaluation: the z-score of the latest value of `[1, 1, 100]`
is `√2 ≈ 1.41`. -/
theorem spike_z_eq :
    (([(1 : ℝ), 1, 100]).getLast?.getD 0 - npMean [(1 : ℝ), 1, 100]) /
      npStd [(1 : ℝ), 1, 100] = Real.sqrt 2 := by
  have hpos : 0 < Real.sqrt 2178 := Real.sqrt_pos.mpr (by norm_num)
  rw [npMean_spike, npStd_spike]
  have hlast : (([(1 : ℝ), 1, 100]).getLast?.getD 0) = 100 := by simp
  rw [hlast, div_eq_iff (ne_of_gt hpos)]
  rw [← Real.sqrt_mul (by norm_num) 2178]
  rw [show (2 : ℝ) * 2178 = 66 ^ 2 by norm_num, Real.sqrt_sq (by norm_num)]
  norm_num

/-- C9: with `window_size = 3` and `threshold = 3.0`, pushing
`1.0, 1.0, 1.0` into a fresh window gives `[1, 1, 1]` and the third
classification returns `(false, 0)`; then pushing `100.0` gives the
window `[1, 1, 100]` with mean 34, standard deviation `√2178`
(between 46.66 and 46.68, ≈ 46.67), z-score `√2` (between 1.41 and 1.42),
and `is_anomaly = false` — the spike stays below the threshold. -/
theorem C9_concrete_scenario :
    dequePushAll 3 [] [(1 : ℝ), 1, 1] = [(1 : ℝ), 1, 1] ∧
    detect_anomaly [(1 : ℝ), 1, 1] 3 = (false, 0) ∧
    dequePushAll 3 [] [(1 : ℝ), 1, 1, 100] = [(1 : ℝ), 1, 100] ∧
    npMean [(1 : ℝ), 1, 100] = 34 ∧
    npStd [(1 : ℝ), 1, 100] = Real.sqrt 2178 ∧
    ((46.66 : ℝ) < npStd [(1 : ℝ), 1, 100] ∧
      npStd [(1 : ℝ), 1, 100] < 46.68) ∧
    (detect_anomaly [(1 : ℝ), 1, 100] 3).2 = Real.sqrt 2 ∧
    ((1.41 : ℝ) < (detect_anomaly [(1 : ℝ), 1, 100] 3).2 ∧
      (detect_anomaly [(1 : ℝ), 1, 100] 3).2 < 1.42) ∧
    (detect_anomaly [(1 : ℝ), 1, 100] 3).1 = false := by
  have hflat : detect_anomaly [(1 : ℝ), 1, 1] 3 = (false, 0) := by
    have hstd : npStd [(1 : ℝ), 1, 1] = 0 := by
      unfold npStd npVar npMean
      norm_num
    unfold detect_anomaly
    rw [if_neg (by norm_num), if_pos hstd]
  have hstdne : npStd [(1 : ℝ), 1, 100] ≠ 0 := by
    rw [npStd_spike]
    exact ne_of_gt (Real.sqrt_pos.mpr (by norm_num))
  have hdet := detect_anomaly_of_long [(1 : ℝ), 1, 100] 3 (by norm_num) hstdne
  have hz : (detect_anomaly [(1 : ℝ), 1, 100] 3).2 = Real.sqrt 2 := by
    rw [hdet]
    exact spike_z_eq
  have hsq2 : Real.sqrt 2 ^ 2 = 2 := Real.sq_sqrt (by norm_num)
  have hsq2n : 0 ≤ Real.sqrt 2 := Real.sqrt_nonneg 2
  have hsqs : Real.sqrt 2178 ^ 2 = 2178 := Real.sq_sqrt (by norm_num)
  have hsqsn : 0 ≤ Real.sqrt 2178 := Real.sqrt_nonneg 2178
  have hlt3 : Real.sqrt 2 < 3 := by nlinarith
  have hflag : (detect_anomaly [(1 : ℝ), 1, 100] 3).1 = false := by
    rw [hdet]
    simp only [decide_eq_false_iff_not, not_lt]
    rw [spike_z_eq, abs_of_nonneg hsq2n]
    linarith
  refine ⟨rfl, hflat, rfl, npMean_spike, npStd_spike,
    ⟨?_, ?_⟩, hz, ⟨?_, ?_⟩, hflag⟩
  · rw [npStd_spike]; nlinarith
  · rw [npStd_spike]; nlinarith
  · rw [hz]; nlinarith
  · rw [hz]; nlinarith

end AnomalyDetection
